import Mathlib

/-!
Shallow embedding of the Library API's query-processing pipeline
(`src/utils/queryUtils.ts`, `src/data/index.ts`, and the `GET /books/search`
route handler of `src/routes/books.ts`), together with theorems checking the
specification's claims about it.

JS `number` values that the code only ever uses as integers are embedded as
`Nat` (identifiers, pagination counters) or `Int` (published years and parsed
filter values, which may be negative); JS strings are embedded as `String`.
-/

namespace LibraryAPI

/-- Book record (`src/models/Book.ts`). -/
structure Book where
  id : Nat
  title : String
  isbn : String
  publishedYear : Int
  authorId : Nat
  deriving DecidableEq

/-- Author record (`src/models/Author.ts`). -/
structure Author where
  id : Nat
  name : String
  email : String
  bio : String
  deriving DecidableEq

/-! ### Pagination (`parsePagination`, `paginate`) -/

/-- `PaginationParams` from `src/utils/queryUtils.ts`.  The values produced by
`parsePagination` are always integers `≥ 1`, represented as `Nat`. -/
structure PaginationParams where
  page : Nat
  limit : Nat
  deriving DecidableEq

/-- The `pagination` metadata object of `PaginationResponse`. -/
structure PageMeta where
  page : Nat
  limit : Nat
  total : Nat
  totalPages : Nat
  hasNext : Bool
  hasPrev : Bool
  deriving DecidableEq

/-- `PaginationResponse<T>` from `src/utils/queryUtils.ts`. -/
structure PaginationResponse (α : Type) where
  data : List α
  pagination : PageMeta
  deriving DecidableEq

/-- `paginate` from `src/utils/queryUtils.ts`.

`Math.ceil(total / limit)` equals `(total + limit - 1) / limit` in `Nat`
arithmetic for `limit > 0`, and `data.slice(startIndex, startIndex + limit)`
equals `(data.drop startIndex).take limit` for the non-negative indices
produced here. -/
def paginate {α : Type} (data : List α) (p : PaginationParams) :
    PaginationResponse α :=
  let total := data.length
  let totalPages := (total + p.limit - 1) / p.limit
  let startIndex := (p.page - 1) * p.limit
  let paginatedData := (data.drop startIndex).take p.limit
  { data := paginatedData
    pagination :=
      { page := p.page
        limit := p.limit
        total := total
        totalPages := totalPages
        hasNext := decide (p.page < totalPages)
        hasPrev := decide (p.page > 1) } }

/-- `(total + limit - 1) / limit` is the least `m` with `total ≤ m * limit`,
i.e. `Math.ceil(total / limit)`. -/
theorem ceil_helper {limit : Nat} (hl : 1 ≤ limit) (total m : Nat) :
    (total + limit - 1) / limit ≤ m ↔ total ≤ m * limit := by
  rw [Nat.div_le_iff_le_mul_add_pred hl, Nat.mul_comm]
  have h := Nat.mul_le_mul_right limit (Nat.le_refl m)
  generalize m * limit = K
  omega

theorem length_le_totalPages_mul {limit : Nat} (hl : 1 ≤ limit) (total : Nat) :
    total ≤ ((total + limit - 1) / limit) * limit :=
  (ceil_helper hl total _).mp (Nat.le_refl _)

/-- C2: for every input sequence and every `page ≥ 1`, `limit ≥ 1`, `paginate`
reports `total` equal to the full input length, `totalPages` equal to
`Math.ceil(total / limit)` (characterised as the least `m` with
`total ≤ m * limit`), `hasNext = (page < totalPages)`, `hasPrev = (page > 1)`,
`data` equal to the slice `[(page-1)*limit, (page-1)*limit + limit)`; a page
beyond `totalPages` yields empty `data` with unchanged totals; and for
`total = 25`, `limit = 10`: page 1 has `hasPrev = false`, `hasNext = true`,
`totalPages = 3`, while page 3 has 5 data entries and `hasNext = false`. -/
theorem paginate_spec {α : Type} (data : List α) (page limit : Nat)
    (hp : 1 ≤ page) (hl : 1 ≤ limit) :
    (paginate data ⟨page, limit⟩).pagination.total = data.length ∧
    (data.length ≤ (paginate data ⟨page, limit⟩).pagination.totalPages * limit ∧
      ∀ m : Nat, data.length ≤ m * limit →
        (paginate data ⟨page, limit⟩).pagination.totalPages ≤ m) ∧
    (paginate data ⟨page, limit⟩).pagination.hasNext
      = decide (page < (paginate data ⟨page, limit⟩).pagination.totalPages) ∧
    (paginate data ⟨page, limit⟩).pagination.hasPrev = decide (1 < page) ∧
    (paginate data ⟨page, limit⟩).data
      = (data.drop ((page - 1) * limit)).take limit ∧
    ((paginate data ⟨page, limit⟩).pagination.totalPages < page →
      (paginate data ⟨page, limit⟩).data = []) ∧
    (data.length = 25 ∧ limit = 10 →
      (paginate data ⟨page, limit⟩).pagination.totalPages = 3 ∧
      (page = 1 → (paginate data ⟨page, limit⟩).pagination.hasPrev = false ∧
        (paginate data ⟨page, limit⟩).pagination.hasNext = true) ∧
      (page = 3 → (paginate data ⟨page, limit⟩).data.length = 5 ∧
        (paginate data ⟨page, limit⟩).pagination.hasNext = false)) := by
  refine ⟨rfl, ⟨length_le_totalPages_mul hl data.length,
    fun m hm => (ceil_helper hl data.length m).mpr hm⟩, rfl, rfl, rfl, ?_, ?_⟩
  · intro hbeyond
    have h1 : data.length ≤ (page - 1) * limit := by
      calc data.length ≤ ((data.length + limit - 1) / limit) * limit :=
            length_le_totalPages_mul hl data.length
        _ ≤ (page - 1) * limit := by
            apply Nat.mul_le_mul_right
            have : (data.length + limit - 1) / limit < page := hbeyond
            omega
    show (data.drop ((page - 1) * limit)).take limit = []
    rw [List.drop_eq_nil_of_le (by simpa using h1), List.take_nil]
  · rintro ⟨h25, h10⟩
    subst h10
    refine ⟨?_, ?_, ?_⟩
    · show (data.length + 10 - 1) / 10 = 3
      omega
    · intro hpage
      subst hpage
      constructor
      · rfl
      · show decide (1 < (data.length + 10 - 1) / 10) = true
        rw [decide_eq_true_iff]
        omega
    · intro hpage
      subst hpage
      constructor
      · show ((data.drop (2 * 10)).take 10).length = 5
        rw [List.length_take, List.length_drop, h25]
        rfl
      · show decide (3 < (data.length + 10 - 1) / 10) = false
        rw [decide_eq_false_iff_not]
        omega

/-- Witness for `paginate_spec` at `data = List.range 25`, `page = 1`,
`limit = 10`. -/
theorem paginate_spec_witness :
    (paginate (List.range 25) ⟨1, 10⟩).pagination.total = (List.range 25).length :=
  (paginate_spec (List.range 25) 1 10 (by decide) (by decide)).1

theorem join_pages_take {α : Type} (data : List α) (limit : Nat) :
    ∀ k : Nat,
      ((List.range k).map fun i => (data.drop (i * limit)).take limit).flatten
        = data.take (k * limit) := by
  intro k
  induction k with
  | zero => simp
  | succ k ih =>
    rw [List.range_succ, List.map_append, List.flatten_append, ih]
    simp only [List.map_cons, List.map_nil, List.flatten_cons, List.flatten_nil,
      List.append_nil]
    rw [Nat.succ_mul, List.take_add]

/-- C3: concatenating the `data` fields of `paginate` for
`page = 1 .. totalPages` reproduces the input sequence exactly, for every
`limit ≥ 1`. -/
theorem paginate_pages_cover {α : Type} (data : List α) (limit : Nat)
    (hl : 1 ≤ limit) :
    ((List.range (paginate data ⟨1, limit⟩).pagination.totalPages).map
        fun i => (paginate data ⟨i + 1, limit⟩).data).flatten = data := by
  have hdata : ∀ i : Nat,
      (paginate data ⟨i + 1, limit⟩).data = (data.drop (i * limit)).take limit := by
    intro i
    show (data.drop ((i + 1 - 1) * limit)).take limit = _
    rfl
  have htp : (paginate data ⟨1, limit⟩).pagination.totalPages
      = (data.length + limit - 1) / limit := rfl
  calc ((List.range (paginate data ⟨1, limit⟩).pagination.totalPages).map
          fun i => (paginate data ⟨i + 1, limit⟩).data).flatten
      = ((List.range ((data.length + limit - 1) / limit)).map
          fun i => (data.drop (i * limit)).take limit).flatten := by
        rw [htp]
        congr 1
    _ = data.take (((data.length + limit - 1) / limit) * limit) :=
        join_pages_take data limit _
    _ = data := List.take_of_length_le (length_le_totalPages_mul hl data.length)

/-- Witness for `paginate_pages_cover` at `data = [0, 1, 2, 3, 4]`,
`limit = 2`. -/
theorem paginate_pages_cover_witness :
    ((List.range (paginate [0, 1, 2, 3, 4] ⟨1, 2⟩).pagination.totalPages).map
        fun i => (paginate [0, 1, 2, 3, 4] ⟨i + 1, 2⟩).data).flatten
      = [0, 1, 2, 3, 4] :=
  paginate_pages_cover [0, 1, 2, 3, 4] 2 (by decide)

/-! ### Query parsing (`parsePagination`) -/

/-- Decimal value of the digit characters of a maximal digit prefix. -/
def digitsToNat (ds : List Char) : Nat :=
  ds.foldl (fun acc c => acc * 10 + (c.toNat - '0'.toNat)) 0

/-- JS `parseInt(s)` (radix 10): skip leading whitespace, read an optional
sign and then the longest digit prefix, ignoring trailing characters; `none`
embeds `NaN`.  (The `0x` hexadecimal special case of `parseInt` is not
modelled; every theorem below holds for an arbitrary parse result.) -/
def jsParseInt (s : String) : Option Int :=
  let cs := s.data.dropWhile (fun c => c.isWhitespace)
  let signAndRest : Int × List Char :=
    match cs with
    | '-' :: r => (-1, r)
    | '+' :: r => (1, r)
    | r => (1, r)
  let ds := signAndRest.2.takeWhile (fun c => c.isDigit)
  if ds.isEmpty then none else some (signAndRest.1 * (digitsToNat ds : Int))

/-- `parseInt(query.x)` where `query.x` may be absent
(`parseInt(undefined)` is `NaN`). -/
def parseIntOfQuery (v : Option String) : Option Int :=
  match v with
  | none => none
  | some s => jsParseInt s

/-- `v || d` applied to a `parseInt` result: `NaN` and `0` are falsy. -/
def orFalsy (v : Option Int) (d : Int) : Int :=
  match v with
  | none => d
  | some n => if n = 0 then d else n

/-- The raw string query input read by `parsePagination`
(`query.page`, `query.limit`). -/
structure RawPaginationQuery where
  page : Option String
  limit : Option String

/-- `parsePagination` from `src/utils/queryUtils.ts`:
`page = Math.max(1, parseInt(query.page) || 1)` and
`limit = Math.min(100, Math.max(1, parseInt(query.limit) || 10))`.
The clamped results are integers `≥ 1`, embedded into `Nat` via `Int.toNat`
(lossless here). -/
def parsePagination (q : RawPaginationQuery) : PaginationParams :=
  let page : Int := max 1 (orFalsy (parseIntOfQuery q.page) 1)
  let limit : Int := min 100 (max 1 (orFalsy (parseIntOfQuery q.limit) 10))
  { page := page.toNat, limit := limit.toNat }

/-- C6: for every raw query, `parsePagination` returns `page ≥ 1` and
`limit ∈ [1, 100]`; an absent or non-numeric `page` (resp. `limit`) falls
back to the default 1 (resp. 10).  The function is total: no input is an
error. -/
theorem parsePagination_spec (q : RawPaginationQuery) :
    1 ≤ (parsePagination q).page ∧
    1 ≤ (parsePagination q).limit ∧ (parsePagination q).limit ≤ 100 ∧
    (parseIntOfQuery q.page = none → (parsePagination q).page = 1) ∧
    (parseIntOfQuery q.limit = none → (parsePagination q).limit = 10) := by
  refine ⟨?_, ?_, ?_, ?_, ?_⟩
  · show 1 ≤ (max 1 (orFalsy (parseIntOfQuery q.page) 1)).toNat
    omega
  · show 1 ≤ (min 100 (max 1 (orFalsy (parseIntOfQuery q.limit) 10))).toNat
    omega
  · show (min 100 (max 1 (orFalsy (parseIntOfQuery q.limit) 10))).toNat ≤ 100
    omega
  · intro h
    show (max 1 (orFalsy (parseIntOfQuery q.page) 1)).toNat = 1
    rw [h]
    rfl
  · intro h
    show (min 100 (max 1 (orFalsy (parseIntOfQuery q.limit) 10))).toNat = 10
    rw [h]
    rfl

/-- Witness for `parsePagination_spec` at `page = "abc"` (non-numeric) and an
absent `limit`. -/
theorem parsePagination_spec_witness :
    (parsePagination ⟨some "abc", none⟩).page = 1 ∧
    (parsePagination ⟨some "abc", none⟩).limit = 10 :=
  ⟨(parsePagination_spec ⟨some "abc", none⟩).2.2.2.1 (by decide),
   (parsePagination_spec ⟨some "abc", none⟩).2.2.2.2 (by decide)⟩

/-! ### Strings: `toLowerCase` and `includes` -/

/-- JS `String.prototype.includes` on char lists: `sub` occurs as a
contiguous run. -/
def charsInclude (sub : List Char) : List Char → Bool
  | [] => sub.isEmpty
  | c :: rest => sub.isPrefixOf (c :: rest) || charsInclude sub rest

/-- JS `s.includes(sub)`. -/
def strIncludes (s sub : String) : Bool :=
  charsInclude sub.data s.data

/-- JS `s.toLowerCase()`, character by character (the titles, names and
queries involved are ASCII; `Char.toLower` lower-cases exactly the ASCII
upper-case letters). -/
def strToLower (s : String) : String :=
  ⟨s.data.map Char.toLower⟩

/-- JS `s.trim()`: strip leading and trailing whitespace. -/
def strTrim (s : String) : String :=
  ⟨((s.data.dropWhile Char.isWhitespace).reverse.dropWhile
      Char.isWhitespace).reverse⟩

/-! ### Seed data (`src/data/index.ts`) -/

/-- The in-memory `authors` array seeded in `src/data/index.ts`. -/
def seedAuthors : List Author :=
  [{ id := 1, name := "J.K. Rowling", email := "jk.rowling@example.com",
     bio := "British author, best known for the Harry Potter series" },
   { id := 2, name := "Stephen King", email := "stephen.king@example.com",
     bio := "American author of horror, supernatural fiction, suspense, and fantasy novels" },
   { id := 3, name := "Agatha Christie", email := "agatha.christie@example.com",
     bio := "English writer known for her detective novels, especially those featuring Hercule Poirot" }]

/-- The in-memory `books` array seeded in `src/data/index.ts`. -/
def seedBooks : List Book :=
  [{ id := 1, title := "Harry Potter and the Philosopher's Stone",
     isbn := "978-0-7475-3269-9", publishedYear := 1997, authorId := 1 },
   { id := 2, title := "Harry Potter and the Chamber of Secrets",
     isbn := "978-0-7475-3849-3", publishedYear := 1998, authorId := 1 },
   { id := 3, title := "The Shining", isbn := "978-0-385-12167-5",
     publishedYear := 1977, authorId := 2 },
   { id := 4, title := "It", isbn := "978-0-670-81302-4",
     publishedYear := 1986, authorId := 2 },
   { id := 5, title := "Murder on the Orient Express",
     isbn := "978-0-00-711926-2", publishedYear := 1934, authorId := 3 }]

/-! ### Filtering (`filterBooks`) -/

/-- `BookFilterParams` from `src/utils/queryUtils.ts`; every field is
optional. -/
structure BookFilterParams where
  authorId : Option Int := none
  publishedYear : Option Int := none
  publishedYearFrom : Option Int := none
  publishedYearTo : Option Int := none
  title : Option String := none
  isbn : Option String := none
  deriving DecidableEq

/-- JS truthiness of a possibly-absent number: `undefined` and `0` are
falsy. -/
def truthyInt : Option Int → Bool
  | none => false
  | some n => n != 0

/-- JS truthiness of a possibly-absent string: `undefined` and `""` are
falsy. -/
def truthyStr : Option String → Bool
  | none => false
  | some s => s != ""

/-- The predicate of `filterBooks` from `src/utils/queryUtils.ts`: the chain
of `if (filters.x && violates) return false` statements, written as the
equivalent conjunction of one clause per filter field.  A falsy filter value
(absent, `0`, `""`) imposes no constraint. -/
def keepBook (filters : BookFilterParams) (book : Book) : Bool :=
  !(truthyInt filters.authorId
      && (book.authorId : Int) != filters.authorId.getD 0) &&
  !(truthyInt filters.publishedYear
      && book.publishedYear != filters.publishedYear.getD 0) &&
  !(truthyInt filters.publishedYearFrom
      && decide (book.publishedYear < filters.publishedYearFrom.getD 0)) &&
  !(truthyInt filters.publishedYearTo
      && decide (book.publishedYear > filters.publishedYearTo.getD 0)) &&
  !(truthyStr filters.title
      && !strIncludes (strToLower book.title) (strToLower (filters.title.getD ""))) &&
  !(truthyStr filters.isbn && book.isbn != filters.isbn.getD "")

/-- `filterBooks` from `src/utils/queryUtils.ts`. -/
def filterBooks (books : List Book) (filters : BookFilterParams) : List Book :=
  books.filter (keepBook filters)

/-- Spec clause: an absent field imposes no constraint, a specified numeric
field is an exact match. -/
def specClauseNumExact (v : Option Int) (x : Int) : Bool :=
  match v with
  | none => true
  | some a => x == a

/-- Spec clause: `publishedYearFrom` is an inclusive lower bound. -/
def specClauseFrom (v : Option Int) (x : Int) : Bool :=
  match v with
  | none => true
  | some y => decide (y ≤ x)

/-- Spec clause: `publishedYearTo` is an inclusive upper bound. -/
def specClauseTo (v : Option Int) (x : Int) : Bool :=
  match v with
  | none => true
  | some y => decide (x ≤ y)

/-- Spec clause: `title` is a case-insensitive substring match
(`xt` is the already-lower-cased book title). -/
def specClauseTitle (v : Option String) (xt : String) : Bool :=
  match v with
  | none => true
  | some t => strIncludes xt (strToLower t)

/-- Spec clause: `isbn` is an exact string match. -/
def specClauseIsbn (v : Option String) (x : String) : Bool :=
  match v with
  | none => true
  | some i => x == i

/-- The specification's wording of the filter predicate (§4.2): a book is
retained iff it satisfies every *specified* filter field, where absent fields
impose no constraint, `publishedYear`/`isbn` are exact matches,
`publishedYearFrom`/`publishedYearTo` are inclusive bounds and `title` is a
case-insensitive substring.  Stated for comparison with `filterBooks`. -/
def specFilterPred (filters : BookFilterParams) (book : Book) : Bool :=
  specClauseNumExact filters.authorId (book.authorId : Int) &&
  specClauseNumExact filters.publishedYear book.publishedYear &&
  specClauseFrom filters.publishedYearFrom book.publishedYear &&
  specClauseTo filters.publishedYearTo book.publishedYear &&
  specClauseTitle filters.title (strToLower book.title) &&
  specClauseIsbn filters.isbn book.isbn

theorem charsInclude_nil (l : List Char) : charsInclude [] l = true := by
  cases l <;> rfl

theorem clause_eq_num_exact (v : Option Int) (h : v ≠ some 0) (x : Int) :
    (!(truthyInt v && x != v.getD 0)) = specClauseNumExact v x := by
  cases v with
  | none => rfl
  | some a =>
    have ha : a ≠ 0 := fun h0 => h (by rw [h0])
    show (!(truthyInt (some a) && x != a)) = (x == a)
    simp [truthyInt, bne, ha]

theorem clause_eq_year_from (v : Option Int) (h : v ≠ some 0) (x : Int) :
    (!(truthyInt v && decide (x < v.getD 0))) = specClauseFrom v x := by
  cases v with
  | none => rfl
  | some y =>
    have hy : y ≠ 0 := fun h0 => h (by rw [h0])
    show (!(truthyInt (some y) && decide (x < y))) = decide (y ≤ x)
    simp [truthyInt, bne, hy, ← decide_not, not_lt]

theorem clause_eq_year_to (v : Option Int) (h : v ≠ some 0) (x : Int) :
    (!(truthyInt v && decide (x > v.getD 0))) = specClauseTo v x := by
  cases v with
  | none => rfl
  | some y =>
    have hy : y ≠ 0 := fun h0 => h (by rw [h0])
    show (!(truthyInt (some y) && decide (y < x))) = decide (x ≤ y)
    simp [truthyInt, bne, hy, ← decide_not, not_lt]

theorem clause_eq_title (v : Option String) (xt : String) :
    (!(truthyStr v && !strIncludes xt (strToLower (v.getD ""))))
      = specClauseTitle v xt := by
  cases v with
  | none => rfl
  | some t =>
    by_cases ht : t = ""
    · subst ht
      show (!(truthyStr (some "") && !strIncludes xt (strToLower "")))
        = strIncludes xt (strToLower "")
      have hl : strToLower "" = "" := rfl
      rw [hl]
      show true = strIncludes xt ""
      rw [strIncludes, charsInclude_nil]
    · show (!(truthyStr (some t) && !strIncludes xt (strToLower t)))
        = strIncludes xt (strToLower t)
      simp [truthyStr, bne, ht]

theorem clause_eq_isbn (v : Option String) (h : v ≠ some "") (x : String) :
    (!(truthyStr v && x != v.getD "")) = specClauseIsbn v x := by
  cases v with
  | none => rfl
  | some i =>
    have hi : i ≠ "" := fun h0 => h (by rw [h0])
    show (!(truthyStr (some i) && x != i)) = (x == i)
    simp [truthyStr, bne, hi]

/-- C4 (amended): for filters whose specified numeric fields are non-zero and
whose specified `isbn` is non-empty, `filterBooks` returns exactly the books
satisfying every specified filter field, and its output is always an
order-preserving subsequence of the input.  (A zero numeric filter value or an
empty `isbn` filter is falsy in JS and imposes no constraint, see the
counterexample.) -/
theorem filterBooks_matches_spec_pred (books : List Book)
    (f : BookFilterParams)
    (ha : f.authorId ≠ some 0) (hy : f.publishedYear ≠ some 0)
    (hf : f.publishedYearFrom ≠ some 0) (ht : f.publishedYearTo ≠ some 0)
    (hi : f.isbn ≠ some "") :
    filterBooks books f = books.filter (specFilterPred f) ∧
    (filterBooks books f).Sublist books := by
  constructor
  · apply List.filter_congr
    intro b _
    show keepBook f b = specFilterPred f b
    rw [keepBook, specFilterPred, clause_eq_num_exact f.authorId ha,
      clause_eq_num_exact f.publishedYear hy,
      clause_eq_year_from f.publishedYearFrom hf,
      clause_eq_year_to f.publishedYearTo ht,
      clause_eq_title f.title, clause_eq_isbn f.isbn hi]
  · exact List.filter_sublist books

/-- A filter that *specifies* `authorId = 0`: on the seeded books, the claim
"`filterBooks` returns exactly the books satisfying every specified filter
field" fails — no seeded book has `authorId = 0`, yet every book is
returned. -/
theorem filterBooks_zero_filter_counterexample :
    filterBooks seedBooks { authorId := some 0 }
      ≠ seedBooks.filter (specFilterPred { authorId := some 0 }) := by
  decide

/-- Witness for `filterBooks_matches_spec_pred` at the seeded books and the
filter `publishedYearFrom = 1990`. -/
theorem filterBooks_matches_spec_pred_witness :
    filterBooks seedBooks { publishedYearFrom := some 1990 }
      = seedBooks.filter (specFilterPred { publishedYearFrom := some 1990 }) :=
  (filterBooks_matches_spec_pred seedBooks { publishedYearFrom := some 1990 }
    (by decide) (by decide) (by decide) (by decide) (by decide)).1

/-- C10: a numeric filter field that is present but zero is falsy in JS and
imposes no constraint: `filterBooks` returns the input unchanged. -/
theorem filterBooks_zero_noop (books : List Book) :
    filterBooks books { authorId := some 0 } = books ∧
    filterBooks books { publishedYear := some 0 } = books ∧
    filterBooks books { publishedYearFrom := some 0 } = books ∧
    filterBooks books { publishedYearTo := some 0 } = books ∧
    filterBooks books ⟨some 0, some 0, some 0, some 0, none, none⟩ = books := by
  refine ⟨?_, ?_, ?_, ?_, ?_⟩ <;>
    · apply List.filter_eq_self.mpr
      intro b _
      rfl

/-! ### Search (`searchBooks` and the `GET /books/search` handler) -/

/-- `SearchParams` from `src/utils/queryUtils.ts`. -/
structure SearchParams where
  query : String
  fields : List String

/-- `searchBooks` from `src/utils/queryUtils.ts`: disjunction of substring
matches over the requested fields, with the defensive fallback returning the
whole collection when the query is empty after lower-casing and trimming. -/
def searchBooks (books : List Book) (authors : List Author)
    (p : SearchParams) : List Book :=
  let searchQuery := strTrim (strToLower p.query)
  if searchQuery = "" then books
  else
    books.filter fun book =>
      (p.fields.contains "title"
        && strIncludes (strToLower book.title) searchQuery) ||
      (p.fields.contains "isbn"
        && strIncludes (strToLower book.isbn) searchQuery) ||
      (p.fields.contains "author"
        && match authors.find? (fun a => a.id == book.authorId) with
           | some author => strIncludes (strToLower author.name) searchQuery
           | none => false)

/-- The `GET /books/search` handler from `src/routes/books.ts`: a falsy
`query` (absent or the empty string) is rejected with a 400 response;
otherwise the trimmed query is passed to `searchBooks` with the requested
(comma-separated) field list, falling back to the default list when `fields`
is falsy (absent or empty).  The subsequent pagination step is irrelevant to
the claims here, so the handler is modelled as returning the search result
list. -/
def searchHandler (books : List Book) (authors : List Author)
    (query : Option String) (fields : Option String) :
    Except Nat (List Book) :=
  match query with
  | none => .error 400
  | some q =>
    if q = "" then .error 400
    else
      .ok (searchBooks books authors
        { query := strTrim q
          fields := match fields with
                    | some f =>
                      if f = "" then ["title", "isbn", "author"]
                      else f.splitOn ","
                    | none => ["title", "isbn", "author"] })

/-- A search request whose `query` is the single space `" "` is *not*
rejected: it passes the falsy-query check and the defensive fallback of
`searchBooks` makes the request succeed with the full book collection —
contradicting the claim that an all-whitespace query is a 400-class error. -/
theorem searchHandler_whitespace_counterexample :
    searchHandler seedBooks seedAuthors (some " ") none = .ok seedBooks := by
  rfl

/-- C1 (amended): an absent `query` parameter, and a `query` equal to the
empty string, are rejected with a caller-visible 400 error; but a query that
is non-empty yet all-whitespace passes the check and the search succeeds,
returning the full (unfiltered) book collection. -/
theorem searchHandler_query_spec (books : List Book) (authors : List Author)
    (fields : Option String) :
    searchHandler books authors none fields = .error 400 ∧
    searchHandler books authors (some "") fields = .error 400 ∧
    (∀ q : String, q ≠ "" → strTrim q = "" →
      searchHandler books authors (some q) fields = .ok books) := by
  refine ⟨rfl, rfl, ?_⟩
  intro q hq htrim
  show (if q = "" then Except.error 400 else _) = Except.ok books
  rw [if_neg hq]
  congr 1
  show searchBooks books authors _ = books
  rw [searchBooks]
  have hlow : strTrim (strToLower (strTrim q)) = "" := by
    rw [htrim]
    rfl
  rw [hlow]
  rfl

/-- Witness for `searchHandler_query_spec`: the all-whitespace query `"   "`
succeeds on the seeded collection. -/
theorem searchHandler_query_spec_witness :
    searchHandler seedBooks seedAuthors (some "   ") none = .ok seedBooks :=
  (searchHandler_query_spec seedBooks seedAuthors none).2.2 "   "
    (by decide) (by decide)

/-! ### Statistics (`getBookStats`) -/

/-- The `publishedYearRange` object of `getBookStats`. -/
structure YearRange where
  earliest : Int
  latest : Int

/-- The record returned by `getBookStats`.  The two `Record<..>` histograms
are embedded as (finitely supported) functions from keys to entries. -/
structure BookStats where
  totalBooks : Nat
  totalAuthors : Nat
  booksByYear : Int → Nat
  booksByAuthor : Nat → Option (Nat × String)
  publishedYearRange : YearRange
  averagePublishedYear : Int

/-- JS `Math.round(num / den)` for integers with `den > 0`, computed exactly:
round half toward `+∞`, i.e. `⌊num/den + 1/2⌋ = ⌊(2*num + den) / (2*den)⌋`
(`Int` division is Euclidean division, which is floor division for a
positive divisor). -/
def jsRoundDiv (num den : Int) : Int :=
  (2 * num + den) / (2 * den)

/-- `getBookStats` from `src/utils/queryUtils.ts`.  The early return for
`books.length === 0` is the `[]` match arm; `Math.min(...years)` and
`Math.max(...years)` are folds of the binary `min`/`max` over the non-empty
year list; `Math.round(years.reduce(..) / years.length)` is `jsRoundDiv`. -/
def getBookStats (books : List Book) (authors : List Author) : BookStats :=
  let base : BookStats :=
    { totalBooks := books.length
      totalAuthors := authors.length
      booksByYear := fun _ => 0
      booksByAuthor := fun _ => none
      publishedYearRange := { earliest := 0, latest := 0 }
      averagePublishedYear := 0 }
  match books with
  | [] => base
  | b :: rest =>
    let years := (b :: rest).map (·.publishedYear)
    { base with
      booksByYear := (b :: rest).foldl
        (fun m bk => fun y => if y = bk.publishedYear then m y + 1 else m y)
        (fun _ => 0)
      booksByAuthor := (b :: rest).foldl
        (fun m bk =>
          match authors.find? (fun a => a.id == bk.authorId) with
          | some author => fun k =>
              if k = bk.authorId then
                some ((match m bk.authorId with
                       | some e => e.1 + 1
                       | none => 1), author.name)
              else m k
          | none => m)
        (fun _ => none)
      publishedYearRange :=
        { earliest := (rest.map (·.publishedYear)).foldl min b.publishedYear
          latest := (rest.map (·.publishedYear)).foldl max b.publishedYear }
      averagePublishedYear :=
        jsRoundDiv (years.foldl (· + ·) 0) (years.length : Int) }

/-- C8: on an empty book collection `getBookStats` returns zeroed totals, a
zero average (the division is guarded by the early return) and an empty
`booksByYear` histogram, for every author collection. -/
theorem getBookStats_empty (authors : List Author) :
    (getBookStats [] authors).totalBooks = 0 ∧
    (getBookStats [] authors).averagePublishedYear = 0 ∧
    (∀ y : Int, (getBookStats [] authors).booksByYear y = 0) :=
  ⟨rfl, rfl, fun _ => rfl⟩

theorem foldl_min_le_init {α : Type} [LinearOrder α] :
    ∀ (l : List α) (a : α), l.foldl min a ≤ a := by
  intro l
  induction l with
  | nil => intro a; exact le_refl a
  | cons c l ih =>
    intro a
    exact le_trans (ih (min a c)) (min_le_left a c)

theorem foldl_min_le_mem {α : Type} [LinearOrder α] :
    ∀ (l : List α) (a x : α), x ∈ l → l.foldl min a ≤ x := by
  intro l
  induction l with
  | nil => intro a x hx; cases hx
  | cons c l ih =>
    intro a x hx
    rcases List.mem_cons.mp hx with hxc | hxl
    · subst hxc
      exact le_trans (foldl_min_le_init l (min a x)) (min_le_right a x)
    · exact ih (min a c) x hxl

theorem foldl_min_eq_or_mem {α : Type} [LinearOrder α] :
    ∀ (l : List α) (a : α), l.foldl min a = a ∨ l.foldl min a ∈ l := by
  intro l
  induction l with
  | nil => intro a; exact Or.inl rfl
  | cons c l ih =>
    intro a
    rcases ih (min a c) with h | h
    · rcases min_choice a c with hc | hc
      · exact Or.inl (by rw [List.foldl_cons, h, hc])
      · refine Or.inr (List.mem_cons.mpr (Or.inl ?_))
        rw [List.foldl_cons, h, hc]
    · exact Or.inr (List.mem_cons.mpr (Or.inr h))

theorem foldl_max_init_le {α : Type} [LinearOrder α] :
    ∀ (l : List α) (a : α), a ≤ l.foldl max a := by
  intro l
  induction l with
  | nil => intro a; exact le_refl a
  | cons c l ih =>
    intro a
    exact le_trans (le_max_left a c) (ih (max a c))

theorem foldl_max_mem_le {α : Type} [LinearOrder α] :
    ∀ (l : List α) (a x : α), x ∈ l → x ≤ l.foldl max a := by
  intro l
  induction l with
  | nil => intro a x hx; cases hx
  | cons c l ih =>
    intro a x hx
    rcases List.mem_cons.mp hx with hxc | hxl
    · subst hxc
      exact le_trans (le_max_right a x) (foldl_max_init_le l (max a x))
    · exact ih (max a c) x hxl

theorem foldl_max_eq_or_mem {α : Type} [LinearOrder α] :
    ∀ (l : List α) (a : α), l.foldl max a = a ∨ l.foldl max a ∈ l := by
  intro l
  induction l with
  | nil => intro a; exact Or.inl rfl
  | cons c l ih =>
    intro a
    rcases ih (max a c) with h | h
    · rcases max_choice a c with hc | hc
      · exact Or.inl (by rw [List.foldl_cons, h, hc])
      · refine Or.inr (List.mem_cons.mpr (Or.inl ?_))
        rw [List.foldl_cons, h, hc]
    · exact Or.inr (List.mem_cons.mpr (Or.inr h))

/-- `jsRoundDiv num den` is a nearest integer to the rational `num / den`:
it differs from it by at most one half (stated multiplied through by
`2 * den`). -/
theorem jsRoundDiv_near (num den : Int) (hden : 0 < den) :
    -den ≤ 2 * (den * jsRoundDiv num den - num) ∧
    2 * (den * jsRoundDiv num den - num) ≤ den := by
  have hne : (2 * den) ≠ 0 := by omega
  have hmod1 : 0 ≤ (2 * num + den) % (2 * den) := Int.emod_nonneg _ hne
  have hmod2 : (2 * num + den) % (2 * den) < 2 * den :=
    Int.emod_lt_of_pos _ (by omega)
  have heq : 2 * (den * jsRoundDiv num den) + (2 * num + den) % (2 * den)
      = 2 * num + den := by
    have h := Int.ediv_add_emod (2 * num + den) (2 * den)
    rw [jsRoundDiv]
    linear_combination h
  generalize den * jsRoundDiv num den = P at heq ⊢
  omega

/-- C9: on a non-empty book collection, `getBookStats` reports
`publishedYearRange.earliest`/`latest` equal to the minimum/maximum
`publishedYear` and `averagePublishedYear` within one half of the arithmetic
mean of the years (i.e. a nearest integer to it, stated multiplied through by
`2 * count`); on the 5 seeded books it returns `earliest = 1934`,
`latest = 1998` and `averagePublishedYear = 1978`. -/
theorem getBookStats_year_spec (books : List Book) (authors : List Author)
    (h : books ≠ []) :
    ((getBookStats books authors).publishedYearRange.earliest
        ∈ books.map (·.publishedYear) ∧
      ∀ y ∈ books.map (·.publishedYear),
        (getBookStats books authors).publishedYearRange.earliest ≤ y) ∧
    ((getBookStats books authors).publishedYearRange.latest
        ∈ books.map (·.publishedYear) ∧
      ∀ y ∈ books.map (·.publishedYear),
        y ≤ (getBookStats books authors).publishedYearRange.latest) ∧
    (-(books.length : Int)
        ≤ 2 * ((books.length : Int)
            * (getBookStats books authors).averagePublishedYear
          - (books.map (·.publishedYear)).foldl (· + ·) 0) ∧
      2 * ((books.length : Int)
            * (getBookStats books authors).averagePublishedYear
          - (books.map (·.publishedYear)).foldl (· + ·) 0)
        ≤ (books.length : Int)) ∧
    ((getBookStats seedBooks seedAuthors).publishedYearRange.earliest = 1934 ∧
      (getBookStats seedBooks seedAuthors).publishedYearRange.latest = 1998 ∧
      (getBookStats seedBooks seedAuthors).averagePublishedYear = 1978) := by
  match books with
  | [] => exact absurd rfl h
  | b :: rest =>
    refine ⟨⟨?_, ?_⟩, ⟨?_, ?_⟩, ?_, by decide, by decide, by decide⟩
    · show (rest.map (·.publishedYear)).foldl min b.publishedYear
        ∈ (b :: rest).map (·.publishedYear)
      rcases foldl_min_eq_or_mem (rest.map (·.publishedYear))
          b.publishedYear with he | he
      · rw [he, List.map_cons]
        exact List.mem_cons_self _ _
      · rw [List.map_cons]
        exact List.mem_cons_of_mem _ he
    · intro y hy
      show (rest.map (·.publishedYear)).foldl min b.publishedYear ≤ y
      rw [List.map_cons] at hy
      rcases List.mem_cons.mp hy with hyb | hyr
      · rw [hyb]
        exact foldl_min_le_init _ _
      · exact foldl_min_le_mem _ _ y hyr
    · show (rest.map (·.publishedYear)).foldl max b.publishedYear
        ∈ (b :: rest).map (·.publishedYear)
      rcases foldl_max_eq_or_mem (rest.map (·.publishedYear))
          b.publishedYear with he | he
      · rw [he, List.map_cons]
        exact List.mem_cons_self _ _
      · rw [List.map_cons]
        exact List.mem_cons_of_mem _ he
    · intro y hy
      show y ≤ (rest.map (·.publishedYear)).foldl max b.publishedYear
      rw [List.map_cons] at hy
      rcases List.mem_cons.mp hy with hyb | hyr
      · rw [hyb]
        exact foldl_max_init_le _ _
      · exact foldl_max_mem_le _ _ y hyr
    · have hpos : 0 < (((b :: rest).map (·.publishedYear)).length : Int) := by
        rw [List.length_map]
        simp
      have hb := jsRoundDiv_near
        (((b :: rest).map (·.publishedYear)).foldl (· + ·) 0)
        (((b :: rest).map (·.publishedYear)).length : Int) hpos
      have hlen : ((b :: rest).length : Int)
          = (((b :: rest).map (·.publishedYear)).length : Int) := by
        rw [List.length_map]
      rw [hlen]
      exact hb

/-- Witness for `getBookStats_year_spec` at the seeded collections. -/
theorem getBookStats_year_spec_witness :
    (getBookStats seedBooks seedAuthors).publishedYearRange.earliest = 1934 ∧
    (getBookStats seedBooks seedAuthors).publishedYearRange.latest = 1998 ∧
    (getBookStats seedBooks seedAuthors).averagePublishedYear = 1978 :=
  (getBookStats_year_spec seedBooks seedAuthors (by decide)).2.2.2

/-! ### Entity store: identifier assignment (`src/data/index.ts`) -/

/-- `Math.max(...ids)` as a fold of the binary `max`; for the non-empty id
lists it is applied to (ids are `Nat`, hence `≥ 0`) this is the maximum. -/
def maxIds (ids : List Nat) : Nat :=
  ids.foldl max 0

/-- `getNextAuthorId` from `src/data/index.ts`:
`authors.length > 0 ? Math.max(...authors.map(a => a.id)) + 1 : 1`. -/
def getNextAuthorId (authors : List Author) : Nat :=
  if authors.length > 0 then maxIds (authors.map (·.id)) + 1 else 1

/-- The `POST /authors` handler of the authors router (a revision of which
is concatenated in `src/src/routes/books.ts`): a missing/empty (falsy)
`name`, `email` or `bio`, and a duplicate email, are rejected with a 400
response; otherwise a new author with id `getNextId()` — the router's local
copy of the `max(ids)+1 : 1` formula of `getNextAuthorId` — is appended and
returned with status 201.  An absent body field is embedded as the empty
string (both are falsy). -/
def createAuthor (authors : List Author) (name email bio : String) :
    Except Nat (List Author × Author) :=
  if name = "" || email = "" || bio = "" then .error 400
  else if (authors.find? (fun a => a.email == email)).isSome then .error 400
  else
    let newAuthor : Author :=
      { id := getNextAuthorId authors, name := name, email := email,
        bio := bio }
    .ok (authors ++ [newAuthor], newAuthor)

/-- Modelled from the spec: the author-deletion handler (no `DELETE` route
appears in the given authors-router sources) removes the record with the
given id (§4.7 find-index-by-id + remove-by-index, i.e. removal of the
first match). -/
def deleteAuthor : List Author → Nat → List Author
  | [], _ => []
  | a :: rest, targetId =>
    if a.id = targetId then rest else a :: deleteAuthor rest targetId

theorem foldl_nat_max_zero_mem :
    ∀ l : List Nat, l ≠ [] → l.foldl max 0 ∈ l := by
  intro l hl
  rcases foldl_max_eq_or_mem l 0 with h | h
  · match l, hl with
    | c :: l, _ =>
      have hc : c ≤ (c :: l).foldl max 0 := foldl_max_mem_le _ 0 c (by simp)
      rw [h] at hc
      have : c = 0 := Nat.le_zero.mp hc
      rw [h, ← this]
      simp
  · exact h

/-- C7: the next identifier is `max(existing ids) + 1`, or 1 on an empty
collection (strictly greater than every existing id, and exactly one more
than some existing id); consequently creating an author in the seeded store
(ids {1,2,3}) succeeds and assigns id 4, deleting the created author leaves
ids {1,2,3}, and a further create again succeeds with id 4 — deleted ids are
reused. -/
theorem getNextAuthorId_spec (authors : List Author) :
    (authors = [] → getNextAuthorId authors = 1) ∧
    (authors ≠ [] →
      (∀ a ∈ authors, a.id < getNextAuthorId authors) ∧
      (∃ a ∈ authors, getNextAuthorId authors = a.id + 1)) ∧
    ((createAuthor seedAuthors "Jane Doe" "jane.doe@example.com" "bio").map
        (fun r => r.2.id) = .ok 4 ∧
      (createAuthor seedAuthors "Jane Doe" "jane.doe@example.com" "bio").map
        (fun r => (deleteAuthor r.1 r.2.id).map (·.id)) = .ok [1, 2, 3] ∧
      ((createAuthor seedAuthors "Jane Doe" "jane.doe@example.com"
            "bio").bind
          (fun r => createAuthor (deleteAuthor r.1 r.2.id) "John Roe"
            "john.roe@example.com" "bio2")).map (fun r => r.2.id)
        = .ok 4) := by
  refine ⟨?_, ?_, rfl, rfl, rfl⟩
  · intro h
    rw [h]
    rfl
  · intro h
    have hlen : authors.length > 0 := by
      cases authors with
      | nil => exact absurd rfl h
      | cons a l => simp
    have hnext : getNextAuthorId authors = maxIds (authors.map (·.id)) + 1 := by
      rw [getNextAuthorId, if_pos hlen]
    constructor
    · intro a ha
      rw [hnext]
      have : a.id ≤ maxIds (authors.map (·.id)) :=
        foldl_max_mem_le _ 0 a.id (List.mem_map_of_mem _ ha)
      omega
    · have hmem : maxIds (authors.map (·.id)) ∈ authors.map (·.id) := by
        apply foldl_nat_max_zero_mem
        intro hng
        rw [List.map_eq_nil_iff] at hng
        exact h hng
      rcases List.mem_map.mp hmem with ⟨a, ha, hid⟩
      exact ⟨a, ha, by rw [hnext, hid]⟩

/-- Witness for `getNextAuthorId_spec`: the id-reuse scenario on the seeded
authors. -/
theorem getNextAuthorId_spec_witness :
    ((createAuthor seedAuthors "Jane Doe" "jane.doe@example.com"
          "bio").bind
        (fun r => createAuthor (deleteAuthor r.1 r.2.id) "John Roe"
          "john.roe@example.com" "bio2")).map (fun r => r.2.id) = .ok 4 :=
  (getNextAuthorId_spec seedAuthors).2.2.2.2

/-! ### Sorting (`sortBooks`) -/

/-- `SortParams` from `src/utils/queryUtils.ts` (`sortOrder` is `"asc"` or
`"desc"` as produced by `parseSort`). -/
structure SortParams where
  sortBy : String
  sortOrder : String

/-- A comparator value (`aValue`/`bValue`) selected by the
`switch (sortBy)` of `sortBooks`: a number or a string. -/
inductive SortKey where
  | num : Int → SortKey
  | str : String → SortKey
  deriving DecidableEq

/-- The comparator value of one book: `title` compares the lower-cased
title, `publishedYear` the year, `isbn` the raw isbn string, and `id` (also
the `default` arm) the id. -/
def sortKey (sortBy : String) (b : Book) : SortKey :=
  match sortBy with
  | "title" => .str (strToLower b.title)
  | "publishedYear" => .num b.publishedYear
  | "isbn" => .str b.isbn
  | _ => .num (b.id : Int)

/-- `aValue ≤ bValue` on comparator values: numbers numerically, strings
lexicographically by code point (JS `<`/`>` on strings).  `sortKey` never
mixes the two kinds at a fixed `sortBy`, so the mixed cases are arbitrary. -/
def keyLe : SortKey → SortKey → Bool
  | .num a, .num b => decide (a ≤ b)
  | .str a, .str b => decide (a ≤ b)
  | .num _, .str _ => true
  | .str _, .num _ => false

/-- `comparator(a, b) ≤ 0` for the comparator built by `sortBooks`: the
comparator returns −1/0/1 from comparing the selected values, reversing the
comparison when `sortOrder` is not `"asc"` (the code tests
`sortOrder === 'asc'`). -/
def bookLe (p : SortParams) (a b : Book) : Bool :=
  if p.sortOrder = "asc" then keyLe (sortKey p.sortBy a) (sortKey p.sortBy b)
  else keyLe (sortKey p.sortBy b) (sortKey p.sortBy a)

/-- `sortBooks` from `src/utils/queryUtils.ts`.  `[...books].sort(cmp)` is a
non-mutating stable sort by the comparator (stability of
`Array.prototype.sort` is relied upon, spec §4.4), and a stable sort's
output is uniquely determined by the comparator; it is embedded as insertion
sort, which is stable for the reflexive total relation `bookLe p`. -/
def sortBooks (books : List Book) (p : SortParams) : List Book :=
  List.insertionSort (fun a b => bookLe p a b = true) books

theorem keyLe_refl (x : SortKey) : keyLe x x = true := by
  cases x <;> simp [keyLe]

theorem keyLe_total (x y : SortKey) :
    keyLe x y = true ∨ keyLe y x = true := by
  cases x <;> cases y <;> simp [keyLe] <;> exact le_total _ _

theorem keyLe_trans {x y z : SortKey} (h1 : keyLe x y = true)
    (h2 : keyLe y z = true) : keyLe x z = true := by
  cases x <;> cases y <;> cases z <;> simp_all [keyLe] <;>
    exact le_trans h1 h2

theorem keyLe_antisymm {x y : SortKey} (h1 : keyLe x y = true)
    (h2 : keyLe y x = true) : x = y := by
  cases x with
  | num a =>
    cases y with
    | num b =>
      exact congrArg SortKey.num
        (le_antisymm (of_decide_eq_true h1) (of_decide_eq_true h2))
    | str b => exact absurd h2 (by simp [keyLe])
  | str a =>
    cases y with
    | num b => exact absurd h1 (by simp [keyLe])
    | str b =>
      exact congrArg SortKey.str
        (le_antisymm (of_decide_eq_true h1) (of_decide_eq_true h2))

theorem filter_orderedInsert {α : Type} {r : α → α → Prop} [DecidableRel r]
    (q : α → Bool) (a : α) (H : ∀ b, q a = true → q b = true → r a b) :
    ∀ l : List α, (l.orderedInsert r a).filter q
      = if q a then a :: l.filter q else l.filter q := by
  intro l
  induction l with
  | nil =>
    show [a].filter q = _
    cases hqa : q a <;> simp [List.filter_cons, hqa]
  | cons b l ih =>
    rw [List.orderedInsert]
    by_cases hr : r a b
    · rw [if_pos hr]
      cases hqa : q a <;> simp [List.filter_cons, hqa]
    · rw [if_neg hr]
      cases hqa : q a
      · simp [List.filter_cons, ih, hqa]
      · have hqb : q b = false := by
          cases hqb2 : q b
          · rfl
          · exact absurd (H b hqa hqb2) hr
        simp [List.filter_cons, ih, hqa, hqb]

theorem filter_insertionSort {α : Type} {r : α → α → Prop} [DecidableRel r]
    (q : α → Bool) (H : ∀ a b, q a = true → q b = true → r a b) :
    ∀ l : List α, (List.insertionSort r l).filter q = l.filter q := by
  intro l
  induction l with
  | nil => rfl
  | cons a l ih =>
    rw [List.insertionSort, filter_orderedInsert q a (fun b => H a b), ih,
      List.filter_cons]

theorem eq_of_perm_of_map_eq {α β : Type} :
    ∀ {l₁ l₂ : List α} (f : α → β), l₁.Perm l₂ → l₁.map f = l₂.map f →
      (l₁.map f).Nodup → l₁ = l₂ := by
  intro l₁
  induction l₁ with
  | nil =>
    intro l₂ f hp _ _
    exact hp.nil_eq
  | cons a t ih =>
    intro l₂ f hp hm hn
    cases l₂ with
    | nil => exact absurd hm (by simp)
    | cons b t₂ =>
      rw [List.map_cons, List.map_cons] at hm
      have hfa : f a = f b := (List.cons.injEq _ _ _ _ ▸ hm).1
      have hmt : t.map f = t₂.map f := (List.cons.injEq _ _ _ _ ▸ hm).2
      have hab : a = b := by
        rcases List.mem_cons.mp (hp.subset (List.mem_cons_self a t)) with
          h | h
        · exact h
        · exfalso
          have hin : f a ∈ t₂.map f := List.mem_map_of_mem f h
          have hn2 : (f a :: t₂.map f).Nodup := by
            rw [List.map_cons, hfa, hmt] at hn
            rw [hfa]
            exact hn
          exact (List.nodup_cons.mp hn2).1 hin
      subst hab
      have ht : t = t₂ := by
        apply ih f hp.cons_inv hmt
        rw [List.map_cons] at hn
        exact (List.nodup_cons.mp hn).2
      rw [ht]

/-- C5: for every book sequence and allow-listed `sortBy`, the descending
sort equals the reversed ascending sort except for the ordering of books
with equal comparator values: the comparator-value sequences coincide, the
two lists are permutations of one another, books with any fixed comparator
value keep their original (= ascending-sort, by stability) relative order in
both outputs, and when all comparator values are distinct the reversed
ascending output equals the descending output exactly. -/
theorem sortBooks_desc_reverse_asc (books : List Book) (sortBy : String)
    (_hs : sortBy ∈ ["id", "title", "publishedYear", "isbn"]) :
    ((sortBooks books ⟨sortBy, "asc"⟩).reverse.map (sortKey sortBy)
        = (sortBooks books ⟨sortBy, "desc"⟩).map (sortKey sortBy)) ∧
    (sortBooks books ⟨sortBy, "desc"⟩).Perm
      (sortBooks books ⟨sortBy, "asc"⟩).reverse ∧
    (∀ v : SortKey,
      (sortBooks books ⟨sortBy, "asc"⟩).filter
          (fun b => sortKey sortBy b == v)
        = books.filter (fun b => sortKey sortBy b == v) ∧
      (sortBooks books ⟨sortBy, "desc"⟩).filter
          (fun b => sortKey sortBy b == v)
        = books.filter (fun b => sortKey sortBy b == v)) ∧
    ((books.map (sortKey sortBy)).Nodup →
      (sortBooks books ⟨sortBy, "asc"⟩).reverse
        = sortBooks books ⟨sortBy, "desc"⟩) := by
  have hA : ∀ a b : Book, bookLe ⟨sortBy, "asc"⟩ a b
      = keyLe (sortKey sortBy a) (sortKey sortBy b) := by
    intro a b
    rw [bookLe]
    exact if_pos rfl
  have hD : ∀ a b : Book, bookLe ⟨sortBy, "desc"⟩ a b
      = keyLe (sortKey sortBy b) (sortKey sortBy a) := by
    intro a b
    rw [bookLe]
    have hne : ¬("desc" = "asc") := by decide
    exact if_neg hne
  haveI instTotA :
      IsTotal Book (fun a b => bookLe ⟨sortBy, "asc"⟩ a b = true) := by
    constructor
    intro a b
    rw [hA a b, hA b a]
    exact keyLe_total _ _
  haveI instTransA :
      IsTrans Book (fun a b => bookLe ⟨sortBy, "asc"⟩ a b = true) := by
    constructor
    intro a b c h1 h2
    rw [hA a b] at h1
    rw [hA b c] at h2
    rw [hA a c]
    exact keyLe_trans h1 h2
  haveI instTotD :
      IsTotal Book (fun a b => bookLe ⟨sortBy, "desc"⟩ a b = true) := by
    constructor
    intro a b
    rw [hD a b, hD b a]
    exact keyLe_total _ _
  haveI instTransD :
      IsTrans Book (fun a b => bookLe ⟨sortBy, "desc"⟩ a b = true) := by
    constructor
    intro a b c h1 h2
    rw [hD a b] at h1
    rw [hD b c] at h2
    rw [hD a c]
    exact keyLe_trans h2 h1
  haveI instAnti : IsAntisymm SortKey (fun x y => keyLe y x = true) :=
    ⟨fun x y h1 h2 => keyLe_antisymm h2 h1⟩
  have permA : (sortBooks books ⟨sortBy, "asc"⟩).Perm books :=
    List.perm_insertionSort _ books
  have permD : (sortBooks books ⟨sortBy, "desc"⟩).Perm books :=
    List.perm_insertionSort _ books
  have sortedA : (sortBooks books ⟨sortBy, "asc"⟩).Pairwise
      (fun a b => bookLe ⟨sortBy, "asc"⟩ a b = true) :=
    List.sorted_insertionSort _ books
  have sortedD : (sortBooks books ⟨sortBy, "desc"⟩).Pairwise
      (fun a b => bookLe ⟨sortBy, "desc"⟩ a b = true) :=
    List.sorted_insertionSort _ books
  have mapSortedA : ((sortBooks books ⟨sortBy, "asc"⟩).reverse.map
      (sortKey sortBy)).Pairwise (fun x y => keyLe y x = true) := by
    rw [List.pairwise_map, List.pairwise_reverse]
    exact sortedA.imp (fun {a b} h => by rw [hA] at h; exact h)
  have mapSortedD : ((sortBooks books ⟨sortBy, "desc"⟩).map
      (sortKey sortBy)).Pairwise (fun x y => keyLe y x = true) := by
    rw [List.pairwise_map]
    exact sortedD.imp (fun {a b} h => by rw [hD] at h; exact h)
  have permRevAD : (sortBooks books ⟨sortBy, "asc"⟩).reverse.Perm
      (sortBooks books ⟨sortBy, "desc"⟩) :=
    ((sortBooks books ⟨sortBy, "asc"⟩).reverse_perm.trans permA).trans
      permD.symm
  have part1 : (sortBooks books ⟨sortBy, "asc"⟩).reverse.map (sortKey sortBy)
      = (sortBooks books ⟨sortBy, "desc"⟩).map (sortKey sortBy) :=
    List.eq_of_perm_of_sorted (permRevAD.map (sortKey sortBy))
      mapSortedA mapSortedD
  refine ⟨part1, permRevAD.symm, ?_, ?_⟩
  · intro v
    constructor
    · apply filter_insertionSort
      intro a b ha hb
      rw [hA a b]
      have hab : sortKey sortBy a = sortKey sortBy b := by
        rw [eq_of_beq ha, eq_of_beq hb]
      rw [hab]
      exact keyLe_refl _
    · apply filter_insertionSort
      intro a b ha hb
      rw [hD a b]
      have hab : sortKey sortBy a = sortKey sortBy b := by
        rw [eq_of_beq ha, eq_of_beq hb]
      rw [hab]
      exact keyLe_refl _
  · intro hnd
    apply eq_of_perm_of_map_eq (sortKey sortBy) permRevAD part1
    have hperm : ((sortBooks books ⟨sortBy, "asc"⟩).reverse.map
        (sortKey sortBy)).Perm (books.map (sortKey sortBy)) :=
      ((sortBooks books ⟨sortBy, "asc"⟩).reverse_perm.trans permA).map _
    exact hperm.nodup_iff.mpr hnd

/-- Witness for `sortBooks_desc_reverse_asc`: the seeded books sorted by
`publishedYear` (all years distinct). -/
theorem sortBooks_desc_reverse_asc_witness :
    (sortBooks seedBooks ⟨"publishedYear", "asc"⟩).reverse
      = sortBooks seedBooks ⟨"publishedYear", "desc"⟩ :=
  (sortBooks_desc_reverse_asc seedBooks "publishedYear" (by decide)).2.2.2
    (by decide)

end LibraryAPI
